import Mathlib

/-!
Verification of the orshot-mcp-server core (src/index.ts) against its
natural-language specification.  The TypeScript functions are shallowly
embedded as executable Lean definitions: remote HTTP interactions are
modelled by explicit oracle/outcome parameters, JavaScript objects by
association lists that preserve insertion order, and thrown exceptions by
`Except` or by explicit outcome constructors.
-/

namespace Orshot

/-! ## JavaScript string primitives used by the source -/

/-- Boolean prefix test on character lists (used to model
`String.prototype.includes`). -/
def leadingMatch : List Char → List Char → Bool
  | [], _ => true
  | _ :: _, [] => false
  | a :: as, b :: bs => a = b && leadingMatch as bs

/-- Boolean contiguous-substring test on character lists. -/
def listSub : List Char → List Char → Bool
  | n, [] => n.isEmpty
  | n, c :: t => leadingMatch n (c :: t) || listSub n t

/-- Models `hay.includes(needle)` from JavaScript: `needle` occurs as a
contiguous substring of `hay`. -/
def containsStr (hay needle : String) : Bool :=
  listSub needle.toList hay.toList

/-- Models `String.prototype.toLowerCase` for the ASCII range (the only
range exercised by the matching heuristics of the source). -/
def jsLower (s : String) : String := String.mk (s.toList.map Char.toLower)

/-- The whitespace class removed by `String.prototype.trim`. -/
def jsWhitespace (c : Char) : Bool :=
  c = ' ' || c = '\t' || c = '\n' || c = '\r' ||
  c = Char.ofNat 11 || c = Char.ofNat 12 || c = Char.ofNat 0xA0 || c = Char.ofNat 0xFEFF

/-- Models `String.prototype.trim`: strip leading and trailing whitespace. -/
def jsTrim (s : String) : String :=
  String.mk (((s.toList.dropWhile jsWhitespace).reverse.dropWhile jsWhitespace).reverse)

/-! ## The WHATWG URL constructor (platform primitive)

`isUrl` in the source calls `new URL(str)` and inspects `url.protocol`.
The definitions below model the WHATWG basic URL parser for absolute
inputs without a base: a scheme is an ASCII letter followed by
letters/digits/`+`/`-`/`.` and a colon; the special schemes
(http, https, ws, wss, ftp) additionally require a non-empty host after
optional slashes; every other recognised scheme yields an opaque URL. -/

/-- Characters allowed after the first character of a URL scheme. -/
def schemeChar (c : Char) : Bool :=
  c.isAlpha || c.isDigit || c = '+' || c = '-' || c = '.'

/-- Scan the scheme: accumulate scheme characters until a colon.  Fails if
a non-scheme character appears before any colon, or the input ends. -/
def splitSchemeAux : List Char → List Char → Option (List Char × List Char)
  | _, [] => none
  | acc, c :: rest =>
    if c = ':' then some (acc.reverse, rest)
    else if schemeChar c then splitSchemeAux (c :: acc) rest
    else none

/-- Split an input into its (lower-cased) scheme and the remainder after
the colon; the first character must be an ASCII letter. -/
def splitScheme (l : List Char) : Option (String × List Char) :=
  match l with
  | [] => none
  | c :: rest =>
    if c.isAlpha then
      (splitSchemeAux [c] rest).map fun p => (String.mk (p.1.map Char.toLower), p.2)
    else none

/-- Forward or backward slash, both accepted by the WHATWG parser. -/
def isSlash (c : Char) : Bool := c = '/' || c = '\\'

/-- The authority component: skip leading slashes, stop at a path, query
or fragment delimiter. -/
def authorityOf (rest : List Char) : List Char :=
  (rest.dropWhile isSlash).takeWhile fun c =>
    !(c = '/' || c = '\\' || c = '?' || c = '#')

/-- Hostname of an authority: drop credentials before the last `@` and a
trailing `:port`. -/
def hostOfAuthority (auth : List Char) : List Char :=
  ((auth.reverse.takeWhile fun c => c ≠ '@').reverse).takeWhile fun c => c ≠ ':'

/-- Result of a successful `new URL` parse, restricted to the fields the
source reads. -/
structure ParsedURL where
  protocol : String
  host : String
deriving DecidableEq, Repr

/-- Model of `new URL(s)` for absolute inputs: `none` when the constructor
throws.  Special schemes other than `file` require a non-empty host. -/
def urlParse (s : String) : Option ParsedURL :=
  let l := ((s.toList.dropWhile fun c => c ≤ ' ').reverse.dropWhile fun c => c ≤ ' ').reverse
  match splitScheme l with
  | none => none
  | some (sch, rest) =>
    if sch = "http" || sch = "https" || sch = "ws" || sch = "wss" || sch = "ftp" then
      let host := hostOfAuthority (authorityOf rest)
      if host.isEmpty then none else some ⟨sch ++ ":", String.mk host⟩
    else if sch = "file" then
      some ⟨sch ++ ":", String.mk (hostOfAuthority (authorityOf rest))⟩
    else
      some ⟨sch ++ ":", ""⟩

/-- Translation of the source `isUrl` (src/index.ts lines 263-270): try to
construct a URL and test whether the protocol is `https:` or `http:`;
a constructor throw yields `false`. -/
def isUrl (s : String) : Bool :=
  match urlParse s with
  | some u => u.protocol = "https:" || u.protocol = "http:"
  | none => false

/-! ## validateTemplateId (src/index.ts lines 168-197) -/

/-- Return shape of `validateTemplateId`. -/
structure VResult where
  isValid : Bool
  sanitized : String
  error : Option String
deriving DecidableEq, Repr

/-- The character class of the regex `^[a-zA-Z0-9_-]+$`. -/
def isTidChar (c : Char) : Bool :=
  ('a' ≤ c && c ≤ 'z') || ('A' ≤ c && c ≤ 'Z') || ('0' ≤ c && c ≤ '9') ||
  c = '_' || c = '-'

/-- Translation of `validateTemplateId`: reject the empty string (falsy in
JavaScript), trim, reject an empty or over-long trimmed string, reject
characters outside `[a-zA-Z0-9_-]` (on a non-empty trimmed string the
regex `^[a-zA-Z0-9_-]+$` holds iff every character is in the class),
otherwise accept with the trimmed string as `sanitized`. -/
def validateTemplateId (maxLen : Nat) (templateId : String) : VResult :=
  if templateId = "" then
    ⟨false, "", some "Template ID is required and must be a string"⟩
  else
    let sanitized := jsTrim templateId
    if sanitized = "" then
      ⟨false, "", some "Template ID cannot be empty"⟩
    else if sanitized.length > maxLen then
      ⟨false, "", some ("Template ID is too long (max " ++ toString maxLen ++ " characters)")⟩
    else if !(sanitized.toList.all isTidChar) then
      ⟨false, "", some "Template ID contains invalid characters"⟩
    else
      ⟨true, sanitized, none⟩

/-! ## makeOrShotRequest (src/index.ts lines 92-165)

The wrapper loops `for (attempt = 1; attempt <= retries; attempt++)`.
Each iteration performs one `fetch`, whose result is supplied here by an
oracle `Nat → Outcome T` (attempt number to outcome).  A non-ok response
derives an error message from the body and throws it; `fetch` itself or
the timeout abort throw an error carrying a message.  The catch block
breaks out of the loop without retrying when the caught message contains
the substring `401`, `403` or `404`; otherwise, before any non-final
attempt, it sleeps `2^(attempt-1) * retryDelay` milliseconds.  After the
loop the wrapper returns `null`. -/

/-- Body of a non-ok HTTP response as observed by the error-message
derivation: a JSON object with optional `message` and `error` string
fields, or a non-JSON raw text. -/
inductive RespBody where
  | bjson (message : Option String) (error : Option String)
  | braw (text : String)
deriving DecidableEq, Repr

/-- A failed attempt: a non-2xx HTTP response, or an error thrown by
`fetch` itself (network failure, or the `AbortError` of a timeout). -/
inductive FailInfo where
  | http (status : Nat) (statusText : String) (body : RespBody)
  | net (msg : String)
deriving DecidableEq, Repr

/-- Truthiness of an optional JavaScript string (absent or empty is
falsy). -/
def truthyStr : Option String → Bool
  | none => false
  | some s => s ≠ ""

/-- The message of the `Error` thrown for a failed attempt.  For a non-ok
response this follows lines 119-131: start from the HTTP status line, use
`errorData.message || errorData.error` when the body parses as JSON, or
the raw body text when it does not (falling back to the status line when
the text is empty). -/
def msgOf : FailInfo → String
  | .http status statusText body =>
    let statusLine := "HTTP " ++ toString status ++ " " ++ statusText
    match body with
    | .bjson message err =>
      if truthyStr message then message.getD ""
      else if truthyStr err then err.getD ""
      else statusLine
    | .braw text => if text ≠ "" then text else statusLine
  | .net msg => msg

/-- Outcome of one attempt, supplied by the oracle. -/
inductive Outcome (T : Type) where
  | success (value : T)
  | failure (f : FailInfo)
deriving DecidableEq, Repr

/-- The break condition of lines 148-151: the caught error message
contains `401`, `403` or `404` as a substring. -/
def nonRetryable (msg : String) : Bool :=
  containsStr msg "401" || containsStr msg "403" || containsStr msg "404"

/-- Observable behaviour of one wrapper call: the returned value (`none`
is the JavaScript `null`), the number of attempts performed, and the list
of backoff delays slept between attempts, in order. -/
structure RunResult (T : Type) where
  result : Option T
  attempts : Nat
  delays : List Nat
deriving DecidableEq, Repr

/-- The retry loop from attempt number `attempt` with `fuel` iterations of
budget remaining.  `fuel` is only a structural-termination bound: calls
keep `fuel ≥ retries - attempt + 1`, so the `fuel = 0` case is never
reached while `attempt ≤ retries`. -/
def runFrom {T : Type} (oracle : Nat → Outcome T) (retryDelay retries : Nat) :
    Nat → Nat → RunResult T
  | 0, _ => ⟨none, 0, []⟩
  | fuel + 1, attempt =>
    if retries < attempt then ⟨none, 0, []⟩
    else
      match oracle attempt with
      | .success t => ⟨some t, 1, []⟩
      | .failure f =>
        if nonRetryable (msgOf f) then ⟨none, 1, []⟩
        else if attempt < retries then
          let rest := runFrom oracle retryDelay retries fuel (attempt + 1)
          ⟨rest.result, rest.attempts + 1, 2 ^ (attempt - 1) * retryDelay :: rest.delays⟩
        else ⟨none, 1, []⟩

/-- Translation of `makeOrShotRequest`: run the retry loop from attempt 1.
`retries` is an `Int` because the JavaScript parameter is an arbitrary
number; a non-positive value makes the loop guard fail immediately. -/
def makeOrShotRequest {T : Type} (oracle : Nat → Outcome T)
    (retries : Int) (retryDelay : Nat) : RunResult T :=
  runFrom oracle retryDelay retries.toNat retries.toNat 1

/-! ## JavaScript objects as insertion-ordered association lists

`autoMapModifications` observes of each value only whether it is a string
(and then its content) and its truthiness, so a value is modelled as a
string or an opaque non-string carrying its truthiness.  Assignment to an
existing key keeps the key at its original position, as in JavaScript. -/

/-- A JavaScript value, restricted to what the auto-mapper observes. -/
inductive Value where
  | vstr (s : String)
  | vother (truthy : Bool)
deriving DecidableEq, Repr

/-- JavaScript truthiness of a `Value` (the empty string is falsy). -/
def vtruthy : Value → Bool
  | .vstr s => s ≠ ""
  | .vother b => b

/-- An object: keys in insertion order. -/
abbrev Record := List (String × Value)

/-- Property read `r[k]`: the first binding of `k`, if any. -/
def rget (r : Record) (k : String) : Option Value :=
  (r.find? fun kv => kv.1 = k).map Prod.snd

/-- Truthiness of `r[k]` (an absent property is `undefined`, falsy). -/
def rgetTruthy (r : Record) (k : String) : Bool :=
  match rget r k with
  | none => false
  | some v => vtruthy v

/-- Property assignment `r[k] = v`: update in place when the key exists,
otherwise append. -/
def rset (r : Record) (k : String) (v : Value) : Record :=
  if r.any fun kv => kv.1 = k then
    r.map fun kv => if kv.1 = k then (kv.1, v) else kv
  else r ++ [(k, v)]

/-- Property deletion `delete r[k]`. -/
def rdel (r : Record) (k : String) : Record :=
  r.filter fun kv => kv.1 ≠ k

/-! ## autoMapModifications (src/index.ts lines 223-342) -/

/-- One declared modification field of a studio template, restricted to
the properties the auto-mapper reads.  An absent or empty `key`, `id` or
`description` are observationally identical here (both are falsy and
lower-case to the empty string), so all three are plain strings with `""`
for absent. -/
structure ModField where
  key : String
  id : String
  description : String
deriving DecidableEq, Repr

/-- `mod.key || mod.id` with the empty string for a falsy result: the
field key the mapper writes to. -/
def keyOrId (m : ModField) : String :=
  if m.key ≠ "" then m.key else m.id

/-- The per-field match of lines 276-292: the lower-cased key contains
one of image/url/photo/picture/media/src, or the lower-cased description
contains one of image/url/photo/picture/media (`src` is tested on the key
only). -/
def urlModMatch (m : ModField) : Bool :=
  let modKey := jsLower (keyOrId m)
  let modDesc := jsLower m.description
  containsStr modKey "image" || containsStr modKey "url" ||
  containsStr modKey "photo" || containsStr modKey "picture" ||
  containsStr modKey "media" || containsStr modKey "src" ||
  containsStr modDesc "image" || containsStr modDesc "url" ||
  containsStr modDesc "photo" || containsStr modDesc "picture" ||
  containsStr modDesc "media"

/-- The fallback filter of lines 311-317: the lower-cased key contains one
of image/photo/picture/media/url/src, or the lower-cased description
contains one of image/photo/picture. -/
def imageFieldMatch (m : ModField) : Bool :=
  let modKey := jsLower (keyOrId m)
  let modDesc := jsLower m.description
  containsStr modKey "image" || containsStr modKey "photo" ||
  containsStr modKey "picture" || containsStr modKey "media" ||
  containsStr modKey "url" || containsStr modKey "src" ||
  containsStr modDesc "image" || containsStr modDesc "photo" ||
  containsStr modDesc "picture"

/-- Whether an entry value is a URL-valued string
(`typeof value === 'string' && isUrl(value)`). -/
def isUrlVal : Value → Bool
  | .vstr s => isUrl s
  | .vother _ => false

/-- One iteration of the per-field loop (lines 273-306) on the
accumulated mapped object: for a URL-valued entry, find the first
declared field matching `urlModMatch`; when its `key || id` is truthy,
delete the original key (unless equal) and assign the value there. -/
def mapStep (mods : List ModField) (acc : Record) (kv : String × Value) : Record :=
  match kv.2 with
  | .vstr s =>
    if isUrl s then
      match mods.find? urlModMatch with
      | some m =>
        let urlKey := keyOrId m
        if urlKey ≠ "" then
          rset (if kv.1 ≠ urlKey then rdel acc kv.1 else acc) urlKey (.vstr s)
        else acc
      | none => acc
    else acc
  | .vother _ => acc

/-- The per-field mapping pass: fold the loop body over the entries of the
original input, starting from a copy of the input. -/
def autoMapPass (mods : List ModField) (input : Record) : Record :=
  input.foldl (mapStep mods) input

/-- The URL-valued strings among the values of the original input
(line 310). -/
def urlStrings (input : Record) : List String :=
  input.filterMap fun kv =>
    match kv.2 with
    | .vstr s => if isUrl s then some s else none
    | .vother _ => none

/-- The fallback step (lines 310-328): when the original input holds
exactly one URL value and exactly one declared field passes
`imageFieldMatch`, and that field's key is truthy and not already
populated with a truthy value, assign the URL there. -/
def autoMapFallback (mods : List ModField) (input : Record) (mapped : Record) : Record :=
  let urlValues := urlStrings input
  let imageFields := mods.filter imageFieldMatch
  match urlValues, imageFields with
  | [u], [f] =>
    let fieldKey := keyOrId f
    if fieldKey ≠ "" && !(rgetTruthy mapped fieldKey) then
      rset mapped fieldKey (.vstr u)
    else mapped
  | _, _ => mapped

/-- The mapping computation performed once the declared fields are
available: the per-field pass followed by the fallback step. -/
def autoMapCore (mods : List ModField) (input : Record) : Record :=
  autoMapFallback mods input (autoMapPass mods input)

/-- Outcome of the raw `fetch` of the template's declared modification
fields: an ok response whose JSON is an array (a non-array JSON is
`Array.isArray`-normalised to `[]`, represented as `ok []`), a non-ok
response, or a thrown error (network failure or a `response.json()`
throw). -/
inductive FetchMods where
  | ok (mods : List ModField)
  | notOk
  | exn
deriving DecidableEq, Repr

/-- The body of the `try` block of `autoMapModifications` as an
exception-carrying computation: a thrown fetch error propagates as
`Except.error`; a non-ok response and an empty field list return the
input unchanged. -/
def autoMapTry (fetch : FetchMods) (input : Record) : Except String Record :=
  match fetch with
  | .exn => .error "fetch failed"
  | .notOk => .ok input
  | .ok mods =>
    if mods.isEmpty then .ok input
    else .ok (autoMapCore mods input)

/-- Translation of `autoMapModifications`: identity when the feature flag
is disabled; otherwise the `try` body with the catch-all handler of lines
338-341 returning the input on any thrown error. -/
def autoMapModifications (autoMapping : Bool) (fetch : FetchMods) (input : Record) : Record :=
  if !autoMapping then input
  else
    match autoMapTry fetch input with
    | .ok r => r
    | .error _ => input

/-! ## getTemplateType (src/index.ts lines 344-431)

The resolver performs up to three remote listing fetches; each listing is
supplied here as a `Fetch` value (an ok response whose JSON is an array,
a non-ok response, or a thrown error; a non-array JSON is
`Array.isArray`-normalised to `[]`, represented as `ok []`).  The studio
listing is fetched at most twice in one call; the model supplies the same
value both times, matching an unchanged remote listing. -/

/-- A JSON scalar as compared with `===`: a string or a number. -/
inductive JVal where
  | jstr (s : String)
  | jnum (n : Int)
deriving DecidableEq, Repr

/-- A studio-listing entry, restricted to the fields the resolver reads. -/
structure STemplate where
  id : JVal
  name : Option String
deriving DecidableEq, Repr

/-- A library-listing entry, restricted to the fields the resolver reads. -/
structure LTemplate where
  id : JVal
  template_id : Option JVal
deriving DecidableEq, Repr

/-- Outcome of one listing fetch. -/
inductive Fetch (α : Type) where
  | ok (items : List α)
  | notOk
  | exn
deriving DecidableEq, Repr

/-- Translation of `isLikelyStudioTemplate` (lines 345-347): the regex
`^\d+$`. -/
def isLikelyStudioTemplate (templateId : String) : Bool :=
  templateId ≠ "" && templateId.toList.all fun c => '0' ≤ c && c ≤ '9'

/-- The numeric value `parseInt(templateId)` for an all-digits string. -/
def parseIntDigits (s : String) : Int :=
  (s.toList.foldl (fun a c => a * 10 + (c.toNat - 48)) 0 : Nat)

/-- `template.name?.toLowerCase() === templateId.toLowerCase()`. -/
def nameMatches (name : Option String) (templateId : String) : Bool :=
  match name with
  | some n => jsLower n = jsLower templateId
  | none => false

/-- The studio match of lines 367-371, used for all-digits identifiers:
`id` matched as a string or as a number, or a case-insensitive name
match. -/
def studioMatchNumeric (templateId : String) (t : STemplate) : Bool :=
  t.id = .jstr templateId || t.id = .jnum (parseIntDigits templateId) ||
  nameMatches t.name templateId

/-- The studio match of lines 415-417, used for non-numeric identifiers:
`id` equality or a case-insensitive name match (no numeric comparison). -/
def studioMatchByName (templateId : String) (t : STemplate) : Bool :=
  t.id = .jstr templateId || nameMatches t.name templateId

/-- The library match of lines 392-394: `id` or `template_id` strict
equality against the identifier string. -/
def libraryMatch (templateId : String) (t : LTemplate) : Bool :=
  t.id = .jstr templateId || t.template_id = some (.jstr templateId)

/-- Resolved template type. -/
inductive TType where
  | library
  | studio
deriving DecidableEq, Repr

/-- The final studio check of lines 401-424, reached when the library
listing did not match: only performed for a non-numeric identifier; the
fetch may throw, a non-ok response falls through to `null`. -/
def studioStepByName (templateId : String) (studio : Fetch STemplate) :
    Except Unit (Option TType) :=
  if !isLikelyStudioTemplate templateId then
    match studio with
    | .exn => .error ()
    | .notOk => .ok none
    | .ok items =>
      if items.any (studioMatchByName templateId) then .ok (some .studio)
      else .ok none
  else .ok none

/-- The library check of lines 379-399 and its continuation: return
`library` on a match, otherwise continue with the final studio check. -/
def libraryStep (templateId : String)
    (studio : Fetch STemplate) (library : Fetch LTemplate) :
    Except Unit (Option TType) :=
  match library with
  | .exn => .error ()
  | .notOk => studioStepByName templateId studio
  | .ok items =>
    if items.any (libraryMatch templateId) then .ok (some .library)
    else studioStepByName templateId studio

/-- The `try` body of `getTemplateType` as an exception-carrying
computation: the first studio check of lines 352-377 (numeric identifiers
only) followed by the library check; a thrown fetch error propagates, a
non-ok listing response falls through to the next step. -/
def getTemplateTypeTry (templateId : String)
    (studio : Fetch STemplate) (library : Fetch LTemplate) :
    Except Unit (Option TType) :=
  if isLikelyStudioTemplate templateId then
    match studio with
    | .exn => .error ()
    | .notOk => libraryStep templateId studio library
    | .ok items =>
      if items.any (studioMatchNumeric templateId) then .ok (some .studio)
      else libraryStep templateId studio library
  else libraryStep templateId studio library

/-- Translation of `getTemplateType`: the `try` body with the catch
handler of lines 427-430 returning `null` on any thrown error. -/
def getTemplateType (templateId : String)
    (studio : Fetch STemplate) (library : Fetch LTemplate) : Option TType :=
  match getTemplateTypeTry templateId studio library with
  | .ok r => r
  | .error _ => none

/-- Modelled from the spec, section 4.3 (the resolver contract): the
ordered heuristic written exactly as the specification states it.
Step 1: an all-digits identifier is checked against the studio listing
first, matching `id` as string or number or the name case-insensitively.
Step 2: the library listing is checked for an `id` or `template_id`
equality match.  Step 3: a non-numeric identifier not found in the
library is checked against the studio listing by `id` equality or
case-insensitive name.  Step 4: otherwise the resolution is null, and a
fetch error never escapes as a thrown error. -/
def resolveTypeSpec (templateId : String)
    (studio : Fetch STemplate) (library : Fetch LTemplate) : Option TType :=
  let step1Hit :=
    isLikelyStudioTemplate templateId &&
      match studio with
      | .ok items => items.any (studioMatchNumeric templateId)
      | _ => false
  let step1Throw := isLikelyStudioTemplate templateId && studio = .exn
  let step2Hit :=
    match library with
    | .ok items => items.any (libraryMatch templateId)
    | _ => false
  let step3Hit :=
    !isLikelyStudioTemplate templateId &&
      match studio with
      | .ok items => items.any (studioMatchByName templateId)
      | _ => false
  let step3Throw := !isLikelyStudioTemplate templateId && studio = .exn
  if step1Hit then some .studio
  else if step1Throw then none
  else if library = .exn then none
  else if step2Hit then some .library
  else if step3Hit then some .studio
  else if step3Throw then none
  else none

/-! ## Helper lemmas -/

theorem mk_toList (s : String) : String.mk s.toList = s := by
  cases s
  rfl

theorem dropWhile_eq_self_of {α : Type} (p : α → Bool) (l : List α)
    (h : ∀ x ∈ l, p x = false) : l.dropWhile p = l := by
  cases l with
  | nil => rfl
  | cons a t => simp [List.dropWhile, h a (by simp)]

theorem tid_not_ws (c : Char) (h : isTidChar c = true) : jsWhitespace c = false := by
  unfold jsWhitespace
  simp only [Bool.or_eq_false_iff, decide_eq_false_iff_not]
  refine ⟨⟨⟨⟨⟨⟨⟨?_, ?_⟩, ?_⟩, ?_⟩, ?_⟩, ?_⟩, ?_⟩, ?_⟩ <;>
    · intro hc
      subst hc
      exact absurd h (by decide)

theorem jsTrim_of_tid (s : String) (h : s.toList.all isTidChar = true) :
    jsTrim s = s := by
  unfold jsTrim
  have hws : ∀ x ∈ s.toList, jsWhitespace x = false := by
    intro x hx
    exact tid_not_ws x (by simpa using List.all_eq_true.mp h x hx)
  rw [dropWhile_eq_self_of _ _ hws,
    dropWhile_eq_self_of _ _ (by intro x hx; exact hws x (by simpa using hx)),
    List.reverse_reverse, mk_toList]

/-! ## Claim theorems -/

/-- C9: for every string `s`, `isUrl s` is true iff `s` parses as an
absolute URL whose scheme is http or https; in particular
`isUrl "https://example.com" = true`, `isUrl "ftp://example.com" = false`,
`isUrl "not-a-url" = false` and `isUrl "" = false`. -/
theorem isUrl_spec :
    (∀ s : String, isUrl s = true ↔
      ∃ u, urlParse s = some u ∧ (u.protocol = "https:" ∨ u.protocol = "http:")) ∧
    isUrl "https://example.com" = true ∧
    isUrl "ftp://example.com" = false ∧
    isUrl "not-a-url" = false ∧
    isUrl "" = false := by
  refine ⟨fun s => ?_, by decide, by decide, by decide, by decide⟩
  cases h : urlParse s <;> simp [isUrl, h]

/-- C10: a call to `makeOrShotRequest` with a non-positive `retries`
budget performs no HTTP attempt at all, schedules no delay, and returns
null. -/
theorem makeOrShotRequest_nonpositive {T : Type} (oracle : Nat → Outcome T)
    (retries : Int) (delay : Nat) (h : retries ≤ 0) :
    makeOrShotRequest oracle retries delay = ⟨none, 0, []⟩ := by
  unfold makeOrShotRequest
  rw [Int.toNat_of_nonpos h]
  rfl

/-- Witness for C10 at `retries = -2`. -/
theorem makeOrShotRequest_nonpositive_w :
    ((-2 : Int) ≤ 0) ∧
      makeOrShotRequest (T := Unit) (fun _ => .failure (.net "boom")) (-2) 1000 =
        ⟨none, 0, []⟩ :=
  ⟨by decide, makeOrShotRequest_nonpositive _ (-2) 1000 (by decide)⟩

/-- C8 counterexample: the string `" abc"` contains a space, yet
`validateTemplateId` accepts it (the input is trimmed before the
character-class check), contradicting the claim that every string
containing a space is rejected. -/
theorem validateTemplateId_cx :
    (' ' ∈ (" abc" : String).toList) ∧
      validateTemplateId 100 " abc" = ⟨true, "abc", none⟩ := by
  decide

/-- C8 (amended): every string of 1 to 100 characters drawn from
`[A-Za-z0-9_-]` validates with `sanitized` equal to the trimmed input;
and every string whose trimmed form contains a space or an at-sign, or
whose trimmed form is longer than the configured maximum (default 100),
is rejected with a non-empty error message. -/
theorem validateTemplateId_spec :
    (∀ s : String, s ≠ "" → s.toList.all isTidChar = true → s.length ≤ 100 →
      validateTemplateId 100 s = ⟨true, jsTrim s, none⟩) ∧
    (∀ s : String,
      (' ' ∈ (jsTrim s).toList ∨ '@' ∈ (jsTrim s).toList ∨ 100 < (jsTrim s).length) →
      (validateTemplateId 100 s).isValid = false ∧
        ∃ e, (validateTemplateId 100 s).error = some e ∧ e ≠ "") := by
  constructor
  · intro s hne hall hlen
    have ht := jsTrim_of_tid s hall
    simp only [validateTemplateId, ht, if_neg hne]
    rw [if_neg (by omega : ¬ s.length > 100)]
    rw [hall]
    simp
  · intro s h
    by_cases hne : s = ""
    · subst hne
      simp only [jsTrim] at h
      simp at h
    · simp only [validateTemplateId, if_neg hne]
      by_cases ht0 : jsTrim s = ""
      · rw [if_pos ht0]
        exact ⟨rfl, _, rfl, by decide⟩
      · rw [if_neg ht0]
        by_cases hlen : (jsTrim s).length > 100
        · rw [if_pos hlen]
          exact ⟨rfl, _, rfl, by decide⟩
        · rw [if_neg hlen]
          have hbad : (jsTrim s).toList.all isTidChar = false := by
            rcases h with hsp | hat | hlen2
            · rcases h' : (jsTrim s).toList.all isTidChar with _ | _
              · rfl
              · exact absurd (List.all_eq_true.mp h' ' ' hsp) (by decide)
            · rcases h' : (jsTrim s).toList.all isTidChar with _ | _
              · rfl
              · exact absurd (List.all_eq_true.mp h' '@' hat) (by decide)
            · omega
          rw [if_pos (show (!(jsTrim s).toList.all isTidChar) = true by rw [hbad]; rfl)]
          exact ⟨rfl, _, rfl, by decide⟩

/-- Witness for C8 at the accepted string `"abc"` and the rejected string
`"a b"` (whose trimmed form contains a space). -/
theorem validateTemplateId_spec_w :
    (("abc" : String) ≠ "" ∧ ("abc" : String).toList.all isTidChar = true ∧
      ("abc" : String).length ≤ 100 ∧
      validateTemplateId 100 "abc" = ⟨true, jsTrim "abc", none⟩) ∧
    (' ' ∈ (jsTrim "a b").toList ∧ (validateTemplateId 100 "a b").isValid = false ∧
      ∃ e, (validateTemplateId 100 "a b").error = some e ∧ e ≠ "") :=
  ⟨⟨by decide, by decide, by decide,
      validateTemplateId_spec.1 "abc" (by decide) (by decide) (by decide)⟩,
    ⟨by decide, (validateTemplateId_spec.2 "a b" (Or.inl (by decide))).1,
      (validateTemplateId_spec.2 "a b" (Or.inl (by decide))).2⟩⟩

/-- C6: `getTemplateType` follows the ordered resolution algorithm the
specification states: studio listing first for all-digits identifiers
(id as string or number, or case-insensitive name), then the library
listing (id or template_id equality), then — for non-numeric identifiers
only — the studio listing by id equality or case-insensitive name, and
null when nothing matches, without throwing. -/
theorem getTemplateType_follows_spec (tid : String) (studio : Fetch STemplate)
    (library : Fetch LTemplate) :
    getTemplateType tid studio library = resolveTypeSpec tid studio library := by
  unfold getTemplateType getTemplateTypeTry libraryStep studioStepByName resolveTypeSpec
  cases hd : isLikelyStudioTemplate tid <;>
    cases studio <;> cases library <;>
      simp [hd] <;> split_ifs <;> simp_all

/-! ## Wrapper theorems -/

/-- One-step unfolding of the retry loop. -/
theorem runFrom_succ {T : Type} (oracle : Nat → Outcome T) (d r fuel a : Nat) :
    runFrom oracle d r (fuel + 1) a =
      if r < a then ⟨none, 0, []⟩
      else
        match oracle a with
        | .success t => ⟨some t, 1, []⟩
        | .failure f =>
          if nonRetryable (msgOf f) then ⟨none, 1, []⟩
          else if a < r then
            let rest := runFrom oracle d r fuel (a + 1)
            ⟨rest.result, rest.attempts + 1, 2 ^ (a - 1) * d :: rest.delays⟩
          else ⟨none, 1, []⟩ := rfl

/-- An always-500 oracle whose error body is not JSON: every attempt
fails with the default status-line message `HTTP 500 Internal Server
Error`. -/
def oracle500 : Nat → Outcome Unit :=
  fun _ => .failure (.http 500 "Internal Server Error" (.braw ""))

/-- An always-500 oracle whose JSON error body carries a message that
happens to contain the digits 404. -/
def oracle500json404 : Nat → Outcome Unit :=
  fun _ => .failure (.http 500 "Internal Server Error"
    (.bjson (some "upstream resource returned 404") none))

/-- An always-401 oracle whose JSON error body carries a message without
the digits 401/403/404, as real APIs commonly return
(for example a plain `Invalid API key`). -/
def oracle401json : Nat → Outcome Unit :=
  fun _ => .failure (.http 401 "Unauthorized" (.bjson (some "Invalid API key") none))

/-- An always-401 oracle with a non-JSON empty body: the derived message
is the status line `HTTP 401 Unauthorized`. -/
def oracle401raw : Nat → Outcome Unit :=
  fun _ => .failure (.http 401 "Unauthorized" (.braw ""))

/-- An oracle on which every attempt throws a network error. -/
def oracleNet : Nat → Outcome Unit :=
  fun _ => .failure (.net "network down")

/-- C1 counterexample: every attempt fails with an HTTP 401 response, but
its JSON body message `Invalid API key` does not contain the digits 401,
so the wrapper retries: it performs 3 attempts and sleeps twice, not the
single attempt with no delay the claim states.  The break condition of
lines 148-151 tests the derived error message, not the HTTP status. -/
theorem makeOrShotRequest_401_cx :
    makeOrShotRequest oracle401json 3 1000 = ⟨none, 3, [1000, 2000]⟩ ∧
      (makeOrShotRequest oracle401json 3 1000).attempts ≠ 1 ∧
      (makeOrShotRequest oracle401json 3 1000).delays ≠ [] := by
  decide

/-- C1 (amended): for every call with a positive retry budget in which
each attempt's failure derives an error message containing the substring
401, 403 or 404 (as the default status-line message of an HTTP 401, 403
or 404 response does), the wrapper performs exactly one attempt,
schedules no backoff delay, and returns null. -/
theorem makeOrShotRequest_nonretryable_single {T : Type} (oracle : Nat → Outcome T)
    (retries : Int) (delay : Nat) (hr : 1 ≤ retries)
    (h : ∀ i, ∃ f, oracle i = .failure f ∧ nonRetryable (msgOf f) = true) :
    makeOrShotRequest oracle retries delay = ⟨none, 1, []⟩ := by
  obtain ⟨f, hf, hnr⟩ := h 1
  unfold makeOrShotRequest
  obtain ⟨n, hn⟩ : ∃ n, retries.toNat = n + 1 := ⟨retries.toNat - 1, by omega⟩
  rw [hn, runFrom_succ]
  have hg : ¬ (n + 1 < 1) := by omega
  simp [hf, hnr, hg]

/-- Witness for C1 (amended) with an always-401 oracle whose derived
message is the status line. -/
theorem makeOrShotRequest_nonretryable_single_w :
    ((1 : Int) ≤ 3) ∧ makeOrShotRequest oracle401raw 3 1000 = ⟨none, 1, []⟩ :=
  ⟨by decide,
    makeOrShotRequest_nonretryable_single oracle401raw 3 1000 (by decide)
      (fun _ => ⟨_, rfl, by decide⟩)⟩

/-- C3 counterexample: every attempt fails with an HTTP 500 response —
retryable per the claim — but its JSON body message happens to contain
the digits 404, so the wrapper stops after a single attempt instead of
making 3 attempts with delays of 1000ms and 2000ms. -/
theorem makeOrShotRequest_retry_cx :
    makeOrShotRequest oracle500json404 3 1000 = ⟨none, 1, []⟩ ∧
      (makeOrShotRequest oracle500json404 3 1000).attempts ≠ 3 := by
  decide

/-- C3 (amended): for every call with `retries = 3` and
`baseDelay = 1000` in which every attempt fails and no attempt's derived
error message contains the substring 401, 403 or 404 (as holds for
default 5xx status-line messages, network errors and timeouts), the
wrapper makes exactly 3 attempts, sleeps `2^(attempt-1) * 1000`
milliseconds after each non-final attempt — 1000ms then 2000ms — and
returns null. -/
theorem makeOrShotRequest_retryable_three {T : Type} (oracle : Nat → Outcome T)
    (h : ∀ i, ∃ f, oracle i = .failure f ∧ nonRetryable (msgOf f) = false) :
    makeOrShotRequest oracle 3 1000 = ⟨none, 3, [1000, 2000]⟩ := by
  obtain ⟨f1, hf1, hr1⟩ := h 1
  obtain ⟨f2, hf2, hr2⟩ := h 2
  obtain ⟨f3, hf3, hr3⟩ := h 3
  have s3 : runFrom oracle 1000 3 1 3 = ⟨none, 1, []⟩ := by
    show runFrom oracle 1000 3 (0 + 1) 3 = _
    rw [runFrom_succ]
    simp [hf3, hr3]
  have s2 : runFrom oracle 1000 3 2 2 = ⟨none, 2, [2000]⟩ := by
    show runFrom oracle 1000 3 (1 + 1) 2 = _
    rw [runFrom_succ]
    simp [hf2, hr2, s3]
  show runFrom oracle 1000 3 (2 + 1) 1 = _
  rw [runFrom_succ]
  simp [hf1, hr1, s2]

/-- Witness for C3 (amended) with an always-500 oracle. -/
theorem makeOrShotRequest_retryable_three_w :
    makeOrShotRequest oracle500 3 1000 = ⟨none, 3, [1000, 2000]⟩ :=
  makeOrShotRequest_retryable_three oracle500 (fun _ => ⟨_, rfl, by decide⟩)

/-- The loop either returns null or a value produced by a successful
attempt, for every oracle, budget and delay. -/
theorem runFrom_result_dichotomy {T : Type} (oracle : Nat → Outcome T) (d r : Nat) :
    ∀ fuel a, (runFrom oracle d r fuel a).result = none ∨
      ∃ t, (runFrom oracle d r fuel a).result = some t ∧
        ∃ i, oracle i = .success t := by
  intro fuel
  induction fuel with
  | zero => exact fun a => Or.inl rfl
  | succ n ih =>
    intro a
    rw [runFrom_succ]
    by_cases hg : r < a
    · simp [hg]
    · rw [if_neg hg]
      cases ho : oracle a with
      | success t => exact Or.inr ⟨t, rfl, a, ho⟩
      | failure f =>
        by_cases hnr : nonRetryable (msgOf f) = true
        · simp [hnr]
        · by_cases hlt : a < r
          · simp only [hnr, Bool.false_eq_true, if_false, hlt, if_true,
              Bool.not_eq_true] at *
            simpa using ih (a + 1)
          · simp [hnr, hlt]

/-- C5: `makeOrShotRequest` never propagates an error to its caller: for
every oracle (including ones on which every attempt throws), the call
returns either null or a value produced by a successful attempt, and when
no attempt succeeds it returns null. -/
theorem makeOrShotRequest_no_throw {T : Type} (oracle : Nat → Outcome T)
    (retries : Int) (delay : Nat) :
    ((makeOrShotRequest oracle retries delay).result = none ∨
      ∃ t, (makeOrShotRequest oracle retries delay).result = some t ∧
        ∃ i, oracle i = .success t) ∧
    ((∀ i t, oracle i ≠ .success t) →
      (makeOrShotRequest oracle retries delay).result = none) := by
  constructor
  · exact runFrom_result_dichotomy oracle delay retries.toNat retries.toNat 1
  · intro hall
    rcases runFrom_result_dichotomy oracle delay retries.toNat retries.toNat 1 with
      h | ⟨t, _, i, hi⟩
    · exact h
    · exact absurd hi (hall i t)

/-- Witness for C5 with an oracle on which every attempt throws a network
error. -/
theorem makeOrShotRequest_no_throw_w :
    (makeOrShotRequest oracleNet 3 1000).result = none :=
  (makeOrShotRequest_no_throw oracleNet 3 1000).2
    (fun i t h => by simp [oracleNet] at h)

/-! ## Auto-mapping lemmas -/

theorem mapStep_not_url (mods : List ModField) (acc : Record) (kv : String × Value)
    (h : isUrlVal kv.2 = false) : mapStep mods acc kv = acc := by
  obtain ⟨k, v⟩ := kv
  cases v with
  | vstr s => simp only [isUrlVal] at h; simp [mapStep, h]
  | vother b => rfl

theorem foldl_mapStep_no_url (mods : List ModField) :
    ∀ (l : Record) (acc : Record), (∀ kv ∈ l, isUrlVal kv.2 = false) →
      l.foldl (mapStep mods) acc = acc := by
  intro l
  induction l with
  | nil => intro acc _; rfl
  | cons kv t ih =>
    intro acc h
    rw [List.foldl_cons, mapStep_not_url mods acc kv (h kv (by simp))]
    exact ih acc fun x hx => h x (by simp [hx])

theorem urlStrings_nil_of_no_url (l : Record)
    (h : ∀ kv ∈ l, isUrlVal kv.2 = false) : urlStrings l = [] := by
  unfold urlStrings
  rw [List.filterMap_eq_nil_iff]
  intro kv hkv
  have hn := h kv hkv
  cases hv : kv.2 with
  | vstr s => rw [hv] at hn; simp only [isUrlVal] at hn; simp [hv, hn]
  | vother b => simp [hv]

theorem urlStrings_single (k s : String) :
    ∀ l : Record, l.filter (fun kv => isUrlVal kv.2) = [(k, Value.vstr s)] →
      urlStrings l = [s] := by
  intro l
  induction l with
  | nil => intro h; simp at h
  | cons kv t ih =>
    intro h
    by_cases hurl : isUrlVal kv.2 = true
    · rw [List.filter_cons_of_pos (by simpa using hurl)] at h
      rw [List.cons_eq_cons] at h
      obtain ⟨hkv, hte⟩ := h
      subst hkv
      have hnt : ∀ x ∈ t, isUrlVal x.2 = false := by
        intro x hx
        have := List.filter_eq_nil_iff.mp hte x hx
        simpa using this
      have hisurl : isUrl s = true := by simpa [isUrlVal] using hurl
      unfold urlStrings
      rw [List.filterMap_cons]
      simp only [hisurl, if_true]
      have ht0 : urlStrings t = [] := urlStrings_nil_of_no_url t hnt
      unfold urlStrings at ht0
      rw [ht0]
    · rw [List.filter_cons_of_neg (by simpa using hurl)] at h
      have hkv0 : (match kv.2 with
          | Value.vstr s => if isUrl s then some s else none
          | Value.vother _ => none) = (none : Option String) := by
        cases hv : kv.2 with
        | vstr s2 =>
          rw [hv] at hurl
          simp only [isUrlVal] at hurl
          simp [Bool.not_eq_true] at hurl
          simp [hurl]
        | vother b => rfl
      unfold urlStrings
      rw [List.filterMap_cons]
      have := ih h
      unfold urlStrings at this
      simp only [hkv0]
      exact this

theorem rget_mapset (k : String) (v : Value) :
    ∀ r : Record, r.any (fun kv => kv.1 = k) = true →
      rget (r.map fun kv => if kv.1 = k then (kv.1, v) else kv) k = some v := by
  intro r
  induction r with
  | nil => intro h; simp at h
  | cons a t ih =>
    intro h
    by_cases ha : a.1 = k
    · unfold rget
      rw [List.map_cons, if_pos ha, List.find?_cons_of_pos _ (by simpa using ha)]
      simp
    · unfold rget at ih ⊢
      rw [List.map_cons, if_neg ha, List.find?_cons_of_neg _ (by simpa using ha)]
      apply ih
      simpa [List.any_cons, ha] using h

theorem rget_append_single (k : String) (v : Value) :
    ∀ r : Record, r.any (fun kv => kv.1 = k) = false →
      rget (r ++ [(k, v)]) k = some v := by
  intro r
  induction r with
  | nil =>
    intro _
    unfold rget
    rw [List.nil_append, List.find?_cons_of_pos _ (by simp)]
    rfl
  | cons a t ih =>
    intro h
    have ha : ¬ (a.1 = k) := by
      simp only [List.any_cons, Bool.or_eq_false_iff, decide_eq_false_iff_not] at h
      exact h.1
    unfold rget at ih ⊢
    rw [List.cons_append, List.find?_cons_of_neg _ (by simpa using ha)]
    apply ih
    simp only [List.any_cons, Bool.or_eq_false_iff, decide_eq_false_iff_not] at h
    simpa using h.2

theorem rget_rset_self (r : Record) (k : String) (v : Value) :
    rget (rset r k v) k = some v := by
  unfold rset
  by_cases h : r.any (fun kv => kv.1 = k) = true
  · rw [if_pos h]
    exact rget_mapset k v r h
  · have h0 : r.any (fun kv => kv.1 = k) = false := Bool.eq_false_iff.mpr h
    rw [if_neg h]
    exact rget_append_single k v r h0

theorem pass_single (mods : List ModField) (m : ModField) (k s : String)
    (hm : mods.find? urlModMatch = some m) (hk : keyOrId m ≠ "") :
    ∀ (l : Record) (acc : Record),
      l.filter (fun kv => isUrlVal kv.2) = [(k, Value.vstr s)] →
      l.foldl (mapStep mods) acc =
        rset (if k ≠ keyOrId m then rdel acc k else acc) (keyOrId m) (.vstr s) := by
  intro l
  induction l with
  | nil => intro acc h; simp at h
  | cons kv t ih =>
    intro acc h
    by_cases hurl : isUrlVal kv.2 = true
    · rw [List.filter_cons_of_pos (by simpa using hurl)] at h
      rw [List.cons_eq_cons] at h
      obtain ⟨hkv, hte⟩ := h
      subst hkv
      have hnt : ∀ x ∈ t, isUrlVal x.2 = false := by
        intro x hx
        simpa using List.filter_eq_nil_iff.mp hte x hx
      have hisurl : isUrl s = true := by simpa [isUrlVal] using hurl
      rw [List.foldl_cons, foldl_mapStep_no_url mods t _ hnt]
      simp [mapStep, hisurl, hm, hk]
    · rw [List.filter_cons_of_neg (by simpa using hurl)] at h
      rw [List.foldl_cons, mapStep_not_url mods acc kv (by simpa using hurl)]
      exact ih acc h

/-- C7: `autoMapModifications` acts as the identity on its input whenever
the feature flag is disabled, or no input value is a URL string, or the
fetch of the declared fields throws or returns a non-ok response or an
empty list; in particular a thrown fetch error is absorbed and never
propagates. -/
theorem autoMap_identity (flag : Bool) (fetch : FetchMods) (input : Record)
    (h : flag = false ∨ (∀ kv ∈ input, isUrlVal kv.2 = false) ∨
      fetch = .exn ∨ fetch = .notOk ∨ fetch = .ok []) :
    autoMapModifications flag fetch input = input := by
  cases flag with
  | false => rfl
  | true =>
    rcases h with hf | hnu | hf | hf | hf
    · exact absurd hf (by decide)
    · unfold autoMapModifications autoMapTry
      cases fetch with
      | exn => rfl
      | notOk => rfl
      | ok mods =>
        by_cases hm : mods.isEmpty = true
        · simp [hm]
        · have hm0 : mods.isEmpty = false := Bool.eq_false_iff.mpr hm
          simp only [hm0, Bool.not_true, Bool.false_eq_true, if_false]
          show autoMapCore mods input = input
          unfold autoMapCore autoMapPass autoMapFallback
          rw [foldl_mapStep_no_url mods input input hnu,
            urlStrings_nil_of_no_url input hnu]
    · subst hf; rfl
    · subst hf; rfl
    · subst hf; rfl

/-- Witness for C7 in each of the three identity situations: disabled
flag, no URL-valued input, and a failed fetch. -/
theorem autoMap_identity_w :
    autoMapModifications false (.ok [⟨"productImage", "", ""⟩])
        [("img", .vstr "https://x.com/a.jpg")] =
      [("img", .vstr "https://x.com/a.jpg")] ∧
    autoMapModifications true (.ok [⟨"productImage", "", ""⟩])
        [("title", .vstr "hello")] = [("title", .vstr "hello")] ∧
    autoMapModifications true .exn [("img", .vstr "https://x.com/a.jpg")] =
      [("img", .vstr "https://x.com/a.jpg")] :=
  ⟨autoMap_identity false _ _ (Or.inl rfl),
    autoMap_identity true _ _ (Or.inr (Or.inl (by decide))),
    autoMap_identity true .exn _ (Or.inr (Or.inr (Or.inl rfl)))⟩

/-- C2 counterexample: the single declared field's description contains
the token `src`, so under the claim's token set
{image, url, photo, picture, media, src} the fallback should assign the
single URL value to the field key `bg`; the code's fallback filter tests
a description only against {image, photo, picture}, so nothing is
assigned and the input passes through unchanged. -/
theorem autoMap_fallback_cx :
    containsStr (jsLower "src of background") "src" = true ∧
    urlStrings [("link", Value.vstr "https://x.com/b.png")] = ["https://x.com/b.png"] ∧
    rget [("link", Value.vstr "https://x.com/b.png")] "bg" = none ∧
    autoMapModifications true (.ok [⟨"bg", "", "src of background"⟩])
      [("link", .vstr "https://x.com/b.png")] =
      [("link", .vstr "https://x.com/b.png")] := by
  decide

/-- C2 (amended): with auto-mapping enabled, if the original input holds
exactly one URL-valued field and exactly one declared field passes the
code's fallback filter — key containing one of
{image, photo, picture, media, url, src}, or description containing one
of {image, photo, picture} — and that field's key (or id) is non-empty
and not already truthily populated after the per-field pass, then the
output is the per-field pass result with the URL value assigned to that
field's key. -/
theorem autoMap_fallback_assigns (mods : List ModField) (input : Record)
    (f : ModField) (u : String)
    (hu : urlStrings input = [u])
    (hf : mods.filter imageFieldMatch = [f])
    (hk : keyOrId f ≠ "")
    (hp : rgetTruthy (autoMapPass mods input) (keyOrId f) = false) :
    autoMapModifications true (.ok mods) input =
      rset (autoMapPass mods input) (keyOrId f) (.vstr u) := by
  have hne : mods ≠ [] := by
    intro h0
    subst h0
    simp at hf
  have hie : mods.isEmpty = false := by
    cases mods with
    | nil => exact absurd rfl hne
    | cons a t => rfl
  unfold autoMapModifications autoMapTry
  simp only [hie, Bool.not_true, Bool.false_eq_true, if_false]
  show autoMapCore mods input = _
  unfold autoMapCore autoMapFallback
  rw [hu, hf]
  simp [hk, hp]

/-- Witness for C2 (amended): one URL under a generic key, one declared
field that matches the fallback filter but is skipped by the per-field
pass (the first declared field matches the per-field predicate through
its description but has no key to write to). -/
theorem autoMap_fallback_assigns_w :
    urlStrings [("someLink", Value.vstr "https://a.b/c.png")] = ["https://a.b/c.png"] ∧
    ([⟨"", "", "logo url"⟩, ⟨"photoBox", "", ""⟩] : List ModField).filter
      imageFieldMatch = [⟨"photoBox", "", ""⟩] ∧
    keyOrId ⟨"photoBox", "", ""⟩ ≠ "" ∧
    rgetTruthy (autoMapPass [⟨"", "", "logo url"⟩, ⟨"photoBox", "", ""⟩]
      [("someLink", Value.vstr "https://a.b/c.png")]) (keyOrId ⟨"photoBox", "", ""⟩) =
      false ∧
    autoMapModifications true (.ok [⟨"", "", "logo url"⟩, ⟨"photoBox", "", ""⟩])
      [("someLink", Value.vstr "https://a.b/c.png")] =
      rset (autoMapPass [⟨"", "", "logo url"⟩, ⟨"photoBox", "", ""⟩]
        [("someLink", Value.vstr "https://a.b/c.png")])
        (keyOrId ⟨"photoBox", "", ""⟩) (.vstr "https://a.b/c.png") :=
  ⟨by decide, by decide, by decide, by decide,
    autoMap_fallback_assigns _ _ _ _ (by decide) (by decide) (by decide) (by decide)⟩

/-- C4 counterexample: the single declared field's description contains
the token `src`, which the claim's token set includes, so under the claim
the URL value should be moved to `field1`; the code's per-field predicate
tests a description only against {image, url, photo, picture, media}, so
the value stays under its original key and `field1` is never populated. -/
theorem autoMap_move_cx :
    containsStr (jsLower "has src attribute") "src" = true ∧
    isUrl "https://x.com/a.jpg" = true ∧
    autoMapModifications true (.ok [⟨"field1", "", "has src attribute"⟩])
      [("img", .vstr "https://x.com/a.jpg")] =
      [("img", .vstr "https://x.com/a.jpg")] ∧
    rget (autoMapModifications true (.ok [⟨"field1", "", "has src attribute"⟩])
      [("img", .vstr "https://x.com/a.jpg")]) "field1" = none := by
  decide

/-- C4 (amended): with auto-mapping enabled, when the input holds exactly
one URL-valued field `(k, s)` and the first declared field matching the
per-field predicate — key containing one of
{image, url, photo, picture, media, src}, or description containing one
of {image, url, photo, picture, media} — is `m` with a non-empty key, and
the fallback step does not interfere (its filter selects exactly `m` or
does not select exactly one field), then the URL value is moved to `m`'s
key, the original key being deleted unless it equals the target; in
particular declared fields `[{key: productImage, description: product
photo}]` with input `{img: url}` yield exactly `{productImage: url}`. -/
theorem autoMap_moves_url :
    (∀ (mods : List ModField) (m : ModField) (input : Record) (k s : String),
      input.filter (fun kv => isUrlVal kv.2) = [(k, .vstr s)] →
      mods.find? urlModMatch = some m →
      keyOrId m ≠ "" →
      (mods.filter imageFieldMatch = [m] ∨
        (mods.filter imageFieldMatch).length ≠ 1) →
      autoMapModifications true (.ok mods) input =
        rset (if k ≠ keyOrId m then rdel input k else input) (keyOrId m) (.vstr s)) ∧
    autoMapModifications true (.ok [⟨"productImage", "", "product photo"⟩])
      [("img", .vstr "https://x.com/a.jpg")] =
      [("productImage", .vstr "https://x.com/a.jpg")] := by
  constructor
  · intro mods m input k s hu hm hk hfb
    have hmem : (k, Value.vstr s) ∈ input.filter (fun kv => isUrlVal kv.2) := by
      rw [hu]
      exact List.mem_cons_self _ _
    have hisurl : isUrl s = true := by
      simpa [isUrlVal] using (List.mem_filter.mp hmem).2
    have hsne : s ≠ "" := by
      intro h0
      subst h0
      exact absurd hisurl (by decide)
    have hne : mods ≠ [] := by
      intro h0
      subst h0
      simp at hm
    have hie : mods.isEmpty = false := by
      cases mods with
      | nil => exact absurd rfl hne
      | cons a t => rfl
    have hpass : autoMapPass mods input =
        rset (if k ≠ keyOrId m then rdel input k else input) (keyOrId m) (.vstr s) :=
      pass_single mods m k s hm hk input input hu
    unfold autoMapModifications autoMapTry
    simp only [hie, Bool.not_true, Bool.false_eq_true, if_false]
    show autoMapCore mods input = _
    unfold autoMapCore autoMapFallback
    rw [urlStrings_single k s input hu, hpass]
    rcases hfb with hfb | hfb
    · rw [hfb]
      have hpop : ∀ r : Record,
          rgetTruthy (rset r (keyOrId m) (.vstr s)) (keyOrId m) = true := by
        intro r
        unfold rgetTruthy
        rw [rget_rset_self]
        simpa [vtruthy] using hsne
      simp [hpop]
    · rcases hlist : mods.filter imageFieldMatch with _ | ⟨f1, t1⟩
      · rfl
      · rcases t1 with _ | ⟨f2, t2⟩
        · rw [hlist] at hfb
          simp at hfb
        · rfl
  · decide

/-- Witness for C4 (amended) at the claim's own example. -/
theorem autoMap_moves_url_w :
    ([("img", Value.vstr "https://x.com/a.jpg")] : Record).filter
      (fun kv => isUrlVal kv.2) = [("img", .vstr "https://x.com/a.jpg")] ∧
    ([⟨"productImage", "", "product photo"⟩] : List ModField).find? urlModMatch =
      some ⟨"productImage", "", "product photo"⟩ ∧
    keyOrId ⟨"productImage", "", "product photo"⟩ ≠ "" ∧
    autoMapModifications true (.ok [⟨"productImage", "", "product photo"⟩])
      [("img", .vstr "https://x.com/a.jpg")] =
      rset (rdel [("img", Value.vstr "https://x.com/a.jpg")] "img")
        (keyOrId ⟨"productImage", "", "product photo"⟩)
        (.vstr "https://x.com/a.jpg") := by
  refine ⟨by decide, by decide, by decide, ?_⟩
  have h := autoMap_moves_url.1 [⟨"productImage", "", "product photo"⟩]
    ⟨"productImage", "", "product photo"⟩ [("img", .vstr "https://x.com/a.jpg")]
    "img" "https://x.com/a.jpg" (by decide) (by decide) (by decide)
    (Or.inl (by decide))
  rw [h]
  decide

end Orshot
